import Mathlib

/-!
# Verification of the impresso text-embedding pipeline

Shallow embedding of `lib/text_embedding_processor.py`: the record
filter/embedder (`compute_embeddings`), the run pipeline, the statistics
counters, the local stream reader, the S3 path resolver and the
existence-gated uploader, together with theorems settling the
specification's claims about them.
-/

namespace TextEmbedder

/-- Python exception kinds relevant to the modelled code.  `valueError m`
models `ValueError(m)`; `ioOnClosedFile` the `ValueError` raised by I/O on
a closed file; `botoNoCredentials` and `botoPartialCredentials` the
botocore `NoCredentialsError`/`PartialCredentialsError` (which are
`BotoCoreError`s, not `ClientError`s); `attributeError` the
`AttributeError` raised while an except clause names a non-existent
attribute. -/
inductive PyErr where
  | valueError (msg : String)
  | ioOnClosedFile
  | botoNoCredentials
  | botoPartialCredentials
  | attributeError
deriving DecidableEq, Repr

/-- Python `f"{x}"` for an optional string: `None` renders as `"None"`. -/
def pyStrOfOpt : Option String → String
  | none => "None"
  | some s => s

/-- Python `x in lst` where `x` is `data.get("tp")` (an optional string) and
`lst` is the argparse-supplied list of content-type strings.  `None` is never
equal to any string, so `none` is never a member. -/
def optMem (x : Option String) (lst : List String) : Bool :=
  match x with
  | none => false
  | some s => lst.contains s

/-- The `str.startswith` test, expressed on the underlying character lists. -/
def pyStartsWith (s p : String) : Bool :=
  p.data.isPrefixOf s.data

/-- Round a rational to the nearest integer, ties to even — the rounding mode
of Python's built-in `round`.  (The source rounds binary floats; we model the
value exactly on rationals.) -/
def roundHalfEven (q : ℚ) : ℤ :=
  let f := ⌊q⌋
  let frac := q - f
  if frac < 1/2 then f
  else if 1/2 < frac then f + 1
  else if f % 2 = 0 then f else f + 1

/-- Python `round(n, 5)`: scale by 10^5, round half-to-even, scale back. -/
def pyRound5 (q : ℚ) : ℚ :=
  (roundHalfEven (q * 100000) : ℚ) / 100000

/-- The histogram bucket of the source: `ceil(textlen / 5000) * 5000`. -/
def bucket5k (n : Nat) : Nat :=
  (⌈(n : ℚ) / 5000⌉).toNat * 5000

/-- Left-pad the decimal rendering of `n` with zeros to width `w`
(Python's `%0Nd` formatting used by `datetime.isoformat`). -/
def padZ (w : Nat) (n : Nat) : String :=
  let s := toString n
  String.mk (List.replicate (w - s.length) '0') ++ s

/-- A civil UTC date-time at second precision: the model of the Python
`datetime` produced by `fromtimestamp(..., tz=utc).replace(microsecond=0)`. -/
structure DateTimeUTC where
  year : Nat
  month : Nat
  day : Nat
  hour : Nat
  minute : Nat
  second : Nat
deriving DecidableEq, Repr

/-- Convert a count of days since 1970-01-01 to a civil (year, month, day),
for non-negative day counts (timestamps at or after the epoch). -/
def civilFromDays (days : Int) : Int × Int × Int :=
  let z := days + 719468
  let era := z / 146097
  let doe := z - era * 146097
  let yoe := (doe - doe / 1460 + doe / 36524 - doe / 146096) / 365
  let y := yoe + era * 400
  let doy := doe - (365 * yoe + yoe / 4 - yoe / 100)
  let mp := (5 * doy + 2) / 153
  let d := doy - (153 * mp + 2) / 5 + 1
  let m := mp + (if mp < 10 then 3 else -9)
  (y + (if m ≤ 2 then 1 else 0), m, d)

/-- The model of `datetime.datetime.fromtimestamp(t, tz=utc)` followed by
`.replace(microsecond=0)`, for a non-negative whole-second epoch `t`. -/
def epochToUTC (t : Nat) : DateTimeUTC :=
  let days : Int := (t : Int) / 86400
  let secs : Nat := t % 86400
  let c := civilFromDays days
  { year := c.1.toNat
    month := c.2.1.toNat
    day := c.2.2.toNat
    hour := secs / 3600
    minute := secs % 3600 / 60
    second := secs % 60 }

/-- Python `datetime.isoformat()` on a timezone-aware UTC datetime whose
microsecond is 0: `YYYY-MM-DDTHH:MM:SS` followed by the UTC offset
`+00:00` (the offset is part of `isoformat()` output for aware datetimes). -/
def isoformatUTC (d : DateTimeUTC) : String :=
  padZ 4 d.year ++ "-" ++ padZ 2 d.month ++ "-" ++ padZ 2 d.day ++ "T" ++
    padZ 2 d.hour ++ ":" ++ padZ 2 d.minute ++ ":" ++ padZ 2 d.second ++ "+00:00"

/-- The `ts` field written by the source: `self.last_timestamp.isoformat() + "Z"`
where `last_timestamp` is the aware UTC datetime of the embedding end time. -/
def tsString (t : Nat) : String :=
  isoformatUTC (epochToUTC t) ++ "Z"

/-- Truncation of a wall-clock reading (epoch seconds as a rational) to the
whole second kept by `replace(microsecond=0)`; valid for times at or after
the epoch. -/
def epochSecOf (t : ℚ) : Nat :=
  (⌊t⌋).toNat

/-- The command-line arguments consumed by the core pipeline (argparse fields
of the source that `TextEmbeddingProcessor` reads). -/
structure Args where
  content_type : List String
  min_char_length : Int
  model_name : String
  model_revision : String
  normalize_embeddings : Bool
  include_text : Bool
  s3_output_path : Option String
  s3_output_dry_run : Bool
  keep_timestamp_only : Bool
deriving DecidableEq, Repr

/-- An input record: the decoded JSON object, restricted to the fields the
source reads via `data.get`.  Absent fields are `none` (Python `None`). -/
structure InputRecord where
  id : Option String
  tp : Option String
  ft : Option String
  lang : Option String
deriving DecidableEq, Repr

/-- A Result Record: the dict built by `compute_embeddings` for a qualifying
input.  `textOpt` is the optional `text` field (present iff `--include-text`). -/
structure ResultRecord where
  id : Option String
  ts : String
  embedder : String
  len : Nat
  textOpt : Option String
  embedding : List ℚ
deriving DecidableEq, Repr

/-- The statistics `Counter`.  Every update the source performs on a counting
key is `self.stats[key] += 1`, so we record the multiset of increment events
as a list of key strings; the value of counter `k` is the number of
occurrences of `k` (`statGet`).  The float-valued `total_time` entry is kept
separately in `ProcState`. -/
def StatsEvents := List String
deriving DecidableEq, Repr

/-- Value of the counter named `k`: the number of unit increments applied
to it. -/
def statGet (s : List String) (k : String) : Nat :=
  (s.filter (fun e => e = k)).length

/-- Whether a counter key is one of the dynamically named content-type skip
counters `skipped_type_<tp>`. -/
def isSkipKey (k : String) : Bool :=
  pyStartsWith k "skipped_type_"

/-- The sum of all `skipped_type_*` counters. -/
def sumSkipped (s : List String) : Nat :=
  (s.filter isSkipKey).length

/-- The mutable processor state touched by `compute_embeddings`:
`self.model` (tracked as whether it has been constructed), `self.stats`
(counting events plus the float `total_time`), and `self.last_timestamp`. -/
structure ProcState where
  modelLoaded : Bool
  stats : List String
  total_time : ℚ
  last_timestamp : Option Nat
deriving DecidableEq, Repr

/-- The state after `__init__`: no model, all counters zero, no timestamp
(`Counter(valid_texts=0, short_texts=0, total_time=0)` sets explicit zeros,
which equal the counts of an empty event list). -/
def initState : ProcState :=
  { modelLoaded := false, stats := [], total_time := 0, last_timestamp := none }

/-- The record filter/embedder `compute_embeddings`.  `encode` is the opaque
embedding backend (`self.model.encode`, given the `normalize_embeddings`
flag and the text); `tStart`/`tEnd` are the wall-clock readings taken
directly before and after the `encode` call.  Returns the updated state and
the optional Result Record (Python `None` is `none`). -/
def compute_embeddings (args : Args) (encode : Bool → String → List ℚ)
    (tStart tEnd : ℚ) (st : ProcState) (data : InputRecord) :
    ProcState × Option ResultRecord :=
  let content_item_type := data.tp
  let embedder := args.model_name ++ "@" ++ args.model_revision
  if optMem content_item_type args.content_type = false then
    ({ st with stats := ("skipped_type_" ++ pyStrOfOpt content_item_type) :: st.stats },
      none)
  else
    let st1 := { st with modelLoaded := true }
    let text := (data.ft).getD ""
    let textlen := text.length
    if text ≠ "" ∧ (textlen : Int) > args.min_char_length then
      let st2 := { st1 with stats :=
        ("char_count_bucket_5k:" ++ toString (bucket5k textlen)) :: st1.stats }
      let st3 := { st2 with stats := "valid_texts" :: st2.stats }
      let st4 := { st3 with stats :=
        ("valid_texts_lg:" ++ pyStrOfOpt data.lang) :: st3.stats }
      let embedding := encode args.normalize_embeddings text
      let st5 := { st4 with total_time := st4.total_time + (tEnd - tStart) }
      let lastT := epochSecOf tEnd
      let st6 := { st5 with last_timestamp := some lastT }
      let result : ResultRecord :=
        { id := data.id
          ts := tsString lastT
          embedder := embedder
          len := textlen
          textOpt := if args.include_text then some text else none
          embedding := embedding.map pyRound5 }
      (st6, some result)
    else
      ({ st1 with stats := "short_texts" :: st1.stats }, none)

/-- One run of the streaming pipeline in `run`/`write_embeddings`: the lazy
generator applies `compute_embeddings` to each parsed record in input order;
the writer skips `None` results and, per written record, increments the
`files_created` counter.  Each record carries its pair of wall-clock
readings. -/
def processAll (args : Args) (encode : Bool → String → List ℚ) :
    ProcState → List (InputRecord × ℚ × ℚ) → ProcState × List ResultRecord
  | st, [] => (st, [])
  | st, p :: rest =>
    let step := compute_embeddings args encode p.2.1 p.2.2 st p.1
    match step.2 with
    | some o =>
      let st2 := { step.1 with stats := "files_created" :: step.1.stats }
      let restRes := processAll args encode st2 rest
      (restRes.1, o :: restRes.2)
    | none =>
      let restRes := processAll args encode step.1 rest
      (restRes.1, restRes.2)

/-- A Python text file handle: the remaining lines its iterator will yield,
and whether it has been closed. -/
structure FileHandle where
  lines : List String
  closed : Bool
deriving DecidableEq, Repr

/-- The local branch of `read_lines`:
`with open(input_path, "rt") as infile: return (line for line in infile)`.
The generator expression captures `iter(infile)` immediately but pulls from
it lazily; leaving the `with` block as the function returns closes `infile`,
so the handle the returned generator holds is already closed. -/
def read_lines_local (fileLines : List String) : FileHandle :=
  { lines := fileLines, closed := true }

/-- One `next()` call on the generator returned by the local `read_lines`:
pulling from a closed file raises `ValueError: I/O operation on closed
file`; on an open file it yields the next line or `StopIteration` (`none`). -/
def genNext (h : FileHandle) : Except PyErr (Option (String × FileHandle)) :=
  if h.closed then .error .ioOnClosedFile
  else
    match h.lines with
    | [] => .ok none
    | l :: ls => .ok (some (l, { lines := ls, closed := h.closed }))

/-- Drain the generator: call `next()` until `StopIteration`, collecting the
yielded lines; the first raised exception aborts (it propagates out of the
consuming `for` loop in `run`). -/
def drainLines (closed : Bool) : List String → Except PyErr (List String)
  | [] => if closed then .error .ioOnClosedFile else .ok []
  | l :: ls =>
    if closed then .error .ioOnClosedFile
    else (drainLines closed ls).map (fun r => l :: r)

/-- Consume every line of a handle's generator. -/
def drainGen (h : FileHandle) : Except PyErr (List String) :=
  drainLines h.closed h.lines

/-- Split a character list at the first `'/'`: Python `s.split("/", 1)`
returns one part (`none` here) when no separator occurs, else the two
parts around the first occurrence. -/
def splitFirstSlash : List Char → Option (List Char × List Char)
  | [] => none
  | c :: cs =>
    if c = '/' then some ([], cs)
    else (splitFirstSlash cs).map (fun p => (c :: p.1, p.2))

/-- The path resolver `parse_s3_path`: requires the `s3://` prefix, then
splits the remainder on the first `/` into (bucket, key); both failure
cases raise `ValueError`.  Pure and deterministic. -/
def parse_s3_path (s3_path : String) : Except PyErr (String × String) :=
  if pyStartsWith s3_path "s3://" = false then
    .error (.valueError "S3 path must start with s3://")
  else
    match splitFirstSlash (s3_path.data.drop 5) with
    | some p => .ok (String.mk p.1, String.mk p.2)
    | none => .error (.valueError "S3 path must be in the format s3://bucket/key")

/-- The remote object store: a mapping (newest first) from (bucket, key)
to object contents. -/
def S3State := List ((String × String) × String)
deriving DecidableEq, Repr

/-- Look up an object. -/
def s3Get (s3 : S3State) (bucket key : String) : Option String :=
  (List.find? (fun e => e.1 = (bucket, key)) s3).map (fun e => e.2)

/-- Store an object. -/
def s3Put (s3 : S3State) (bucket key content : String) : S3State :=
  ((bucket, key), content) :: s3

/-- How the remote side and the credentials behave for one run: `ok`
(credentials valid, remote healthy), `noCreds`/`partialCreds` (the first
signed call raises the corresponding botocore error), `otherError` (the
probe works but the upload call raises some other exception). -/
inductive RemoteResult where
  | ok
  | noCreds
  | partialCreds
  | otherError (msg : String)
deriving DecidableEq, Repr

/-- The existence probe `file_exists_in_s3`: `Object(bucket, key).load()`
is a signed HEAD request.  With missing or partial credentials botocore
raises `NoCredentialsError`/`PartialCredentialsError`; these are
`BotoCoreError`s, not `ClientError`s, so the probe's
`except ... ClientError` handler does not catch them and they propagate.
Otherwise the load succeeds iff the object exists, a `ClientError` with
code 404 mapping to `False`.  (Non-404 `ClientError`s re-raise and are
outside this model.) -/
def file_exists_in_s3 (s3 : S3State) (remote : RemoteResult)
    (bucket key : String) : Except PyErr Bool :=
  match remote with
  | .noCreds => .error .botoNoCredentials
  | .partialCreds => .error .botoPartialCredentials
  | _ => .ok (s3Get s3 bucket key).isSome

/-- What a completed `upload_file_to_s3` call did (the function returns
`None` in Python; this is the observable outcome).  The only upload
failure the source genuinely catches is a missing local file
(`FileNotFoundError`); every other failure leaves the function by an
exception instead of an outcome. -/
inductive UploadOutcome where
  | skippedExists
  | uploaded
  | errLocalMissing
deriving DecidableEq, Repr

/-- The existence-gated uploader `upload_file_to_s3`.  `localContent` is
the contents of the local file (`none` = file missing).  `parse_s3_path`
and the existence probe both run outside the `try`, so a `ValueError` from
the former and a credentials error from the latter propagate
(`Except.error`).  Inside the `try`, `except FileNotFoundError` is the
only handler that works: for any other exception, matching the next
clause evaluates `self.s3_resource.meta.client.exceptions
.NoCredentialsError`, an attribute boto3's client exception factory does
not have, so the handler search itself raises `AttributeError` and the
failure is fatal — the trailing `except Exception` clause is
unreachable. -/
def upload_file_to_s3 (s3 : S3State) (localContent : Option String)
    (remote : RemoteResult) (s3_path : String) :
    Except PyErr (S3State × UploadOutcome) :=
  match parse_s3_path s3_path with
  | .error e => .error e
  | .ok bk =>
    match file_exists_in_s3 s3 remote bk.1 bk.2 with
    | .error e => .error e
    | .ok true => .ok (s3, .skippedExists)
    | .ok false =>
      match localContent, remote with
      | none, _ => .ok (s3, .errLocalMissing)
      | some c, .ok => .ok (s3Put s3 bk.1 bk.2 c, .uploaded)
      | some _, _ => .error .attributeError

/-- The truncate-to-marker step `keep_timestamp_only` (happy path of its
`try`): opening the file with mode `"w"` truncates it to zero bytes
(creating it if missing), then its access/modification times are set to the
given timestamp, defaulting to `self.last_timestamp or now`.  Returns the
new file contents and the applied time. -/
def keep_timestamp_only (timestamp : Option Nat) (lastTs : Option Nat)
    (now : Nat) : Option String × Nat :=
  (some "", (timestamp.getD (lastTs.getD now)))

/-- The upload phase of `run` (source lines 183-187): if an S3 output path
is configured and this is not a dry run, call `upload_file_to_s3`, then —
unconditionally on the upload's outcome, which `run` cannot even observe —
call `keep_timestamp_only` whenever `--keep-timestamp-only` is set.
Returns the remote store, the local file contents, the local file time and
the upload outcome (`none` when the phase did not run). -/
def runUploadPhase (args : Args) (s3 : S3State) (localContent : Option String)
    (localMtime : Nat) (remote : RemoteResult) (lastTs : Option Nat)
    (now : Nat) : Except PyErr (S3State × Option String × Nat × Option UploadOutcome) :=
  match args.s3_output_path, args.s3_output_dry_run with
  | some p, false =>
    match upload_file_to_s3 s3 localContent remote p with
    | .error e => .error e
    | .ok r =>
      if args.keep_timestamp_only then
        let k := keep_timestamp_only none lastTs now
        .ok (r.1, k.1, k.2, some r.2)
      else
        .ok (r.1, localContent, localMtime, some r.2)
  | _, _ => .ok (s3, localContent, localMtime, none)

/-! ## Helper lemmas -/

/-- The Result Record produced for a record does not depend on the processor
state: `compute_embeddings` reads the state only to update counters. -/
theorem compute_snd_state_irrel (args : Args) (encode : Bool → String → List ℚ)
    (tS tE : ℚ) (st st' : ProcState) (r : InputRecord) :
    (compute_embeddings args encode tS tE st r).2 =
      (compute_embeddings args encode tS tE st' r).2 := by
  unfold compute_embeddings
  by_cases h1 : optMem r.tp args.content_type = false
  · simp [h1]
  · by_cases h2 : (r.ft).getD "" ≠ "" ∧ (((r.ft).getD "").length : Int) > args.min_char_length
    · simp [h1, h2]
    · simp [h1, h2]

/-- The output stream of the pipeline is the in-order `filterMap` of the
per-record results (which are state-independent). -/
theorem processAll_snd (args : Args) (encode : Bool → String → List ℚ)
    (st : ProcState) (recs : List (InputRecord × ℚ × ℚ)) :
    (processAll args encode st recs).2 =
      recs.filterMap
        (fun p => (compute_embeddings args encode p.2.1 p.2.2 initState p.1).2) := by
  induction recs generalizing st with
  | nil => rfl
  | cons p rest ih =>
    have hirr := compute_snd_state_irrel args encode p.2.1 p.2.2 initState st p.1
    simp only [processAll, List.filterMap_cons, hirr]
    cases h : (compute_embeddings args encode p.2.1 p.2.2 st p.1).2 with
    | none => simp [h, ih]
    | some o => simp [h, ih]

/-- Unit increments shift a counter's value by one exactly when the keys
match. -/
theorem statGet_cons (e k : String) (s : List String) :
    statGet (e :: s) k = statGet s k + if e = k then 1 else 0 := by
  by_cases h : e = k <;> simp [statGet, List.filter_cons, h]

/-- Unit increments shift the sum of skip counters exactly when the key is a
`skipped_type_*` key. -/
theorem sumSkipped_cons (e : String) (s : List String) :
    sumSkipped (e :: s) = sumSkipped s + if isSkipKey e then 1 else 0 := by
  by_cases h : isSkipKey e <;> simp [sumSkipped, List.filter_cons, h]

/-- A list is a prefix of itself followed by anything (boolean form). -/
theorem isPrefixOf_append_self (l m : List Char) : l.isPrefixOf (l ++ m) = true :=
  List.isPrefixOf_iff_prefix.mpr (List.prefix_append l m)

/-- Every `skipped_type_<tp>` key is a skip key. -/
theorem isSkipKey_skip (x : String) : isSkipKey ("skipped_type_" ++ x) = true := by
  simp only [isSkipKey, pyStartsWith, String.data_append]
  exact isPrefixOf_append_self _ _

/-- Per-language keys are not skip keys (their first character differs). -/
theorem isSkipKey_lang (x : String) : isSkipKey ("valid_texts_lg:" ++ x) = false := by
  simp only [isSkipKey, pyStartsWith, String.data_append]
  rw [List.cons_append]
  simp [List.isPrefixOf]

/-- Histogram-bucket keys are not skip keys. -/
theorem isSkipKey_bucket (x : String) :
    isSkipKey ("char_count_bucket_5k:" ++ x) = false := by
  simp only [isSkipKey, pyStartsWith, String.data_append]
  rw [List.cons_append]
  simp [List.isPrefixOf]

/-- A string with a strictly longer mandatory head cannot equal a shorter
string. -/
theorem append_ne_of_lt_length (a b x : String) (h : b.length < a.length) :
    a ++ x ≠ b := by
  intro he
  have hl := congrArg String.length he
  rw [String.length_append] at hl
  omega

/-- A `skipped_type_<tp>` key never collides with `files_created`. -/
theorem skip_ne_files (x : String) : "skipped_type_" ++ x ≠ "files_created" := by
  intro he
  have hd : ("skipped_type_" ++ x).data.head? = ("files_created" : String).data.head? := by
    rw [he]
  rw [String.data_append,
    show ("skipped_type_" : String).data = 's' :: ("kipped_type_" : String).data from rfl,
    List.cons_append] at hd
  simp only [List.head?_cons] at hd
  exact absurd hd (by decide)

/-- Branch behaviour of `compute_embeddings` for a disallowed content type:
only the skip counter changes, nothing is returned and the model is not
loaded. -/
theorem compute_skip (args : Args) (encode : Bool → String → List ℚ)
    (tS tE : ℚ) (st : ProcState) (r : InputRecord)
    (h : optMem r.tp args.content_type = false) :
    compute_embeddings args encode tS tE st r =
      ({ st with stats := ("skipped_type_" ++ pyStrOfOpt r.tp) :: st.stats }, none) := by
  unfold compute_embeddings
  simp [h]

/-- Branch behaviour of `compute_embeddings` for an allowed type whose text
is empty or not longer than the threshold: the model is loaded, the
`short_texts` counter increments, nothing is returned. -/
theorem compute_short (args : Args) (encode : Bool → String → List ℚ)
    (tS tE : ℚ) (st : ProcState) (r : InputRecord)
    (h1 : optMem r.tp args.content_type = true)
    (h2 : ¬((r.ft).getD "" ≠ "" ∧ ((((r.ft).getD "").length : Int) > args.min_char_length))) :
    compute_embeddings args encode tS tE st r =
      ({ st with modelLoaded := true, stats := "short_texts" :: st.stats }, none) := by
  unfold compute_embeddings
  simp only [h1]
  simp [h2]

/-- Branch behaviour of `compute_embeddings` for a qualifying record: the
model is loaded, the bucket, `valid_texts` and per-language counters
increment in that order, timing and timestamp update, and exactly one
Result Record is produced with the exact character count and the rounded
embedding. -/
theorem compute_valid (args : Args) (encode : Bool → String → List ℚ)
    (tS tE : ℚ) (st : ProcState) (r : InputRecord)
    (h1 : optMem r.tp args.content_type = true)
    (h2 : (r.ft).getD "" ≠ "")
    (h3 : (((r.ft).getD "").length : Int) > args.min_char_length) :
    compute_embeddings args encode tS tE st r =
      ({ modelLoaded := true
         stats := ("valid_texts_lg:" ++ pyStrOfOpt r.lang) :: "valid_texts" ::
           ("char_count_bucket_5k:" ++ toString (bucket5k ((r.ft).getD "").length)) :: st.stats
         total_time := st.total_time + (tE - tS)
         last_timestamp := some (epochSecOf tE) },
       some { id := r.id
              ts := tsString (epochSecOf tE)
              embedder := args.model_name ++ "@" ++ args.model_revision
              len := ((r.ft).getD "").length
              textOpt := if args.include_text then some ((r.ft).getD "") else none
              embedding := (encode args.normalize_embeddings ((r.ft).getD "")).map pyRound5 }) := by
  unfold compute_embeddings
  simp [h1, h2, h3]

/-- The combined count the invariant tracks: `valid_texts` plus
`short_texts` plus the sum of all `skipped_type_*` counters. -/
def classSum (s : List String) : Nat :=
  statGet s "valid_texts" + statGet s "short_texts" + sumSkipped s

/-- Every call to `compute_embeddings` increments exactly one of the three
counter classes. -/
theorem classSum_compute (args : Args) (encode : Bool → String → List ℚ)
    (tS tE : ℚ) (st : ProcState) (r : InputRecord) :
    classSum ((compute_embeddings args encode tS tE st r).1.stats) =
      classSum st.stats + 1 := by
  by_cases h1 : optMem r.tp args.content_type = false
  · have hn1 : ("skipped_type_" ++ pyStrOfOpt r.tp) ≠ "valid_texts" :=
      append_ne_of_lt_length _ _ _ (by decide)
    have hn2 : ("skipped_type_" ++ pyStrOfOpt r.tp) ≠ "short_texts" :=
      append_ne_of_lt_length _ _ _ (by decide)
    rw [compute_skip args encode tS tE st r h1]
    simp [classSum, statGet_cons, sumSkipped_cons, isSkipKey_skip, hn1, hn2]
    omega
  · rw [Bool.not_eq_false] at h1
    by_cases h2 : (r.ft).getD "" ≠ "" ∧ ((((r.ft).getD "").length : Int) > args.min_char_length)
    · have hb1 : ("char_count_bucket_5k:" ++ toString (bucket5k ((r.ft).getD "").length)) ≠ "valid_texts" :=
        append_ne_of_lt_length _ _ _ (by decide)
      have hb2 : ("char_count_bucket_5k:" ++ toString (bucket5k ((r.ft).getD "").length)) ≠ "short_texts" :=
        append_ne_of_lt_length _ _ _ (by decide)
      have hl1 : ("valid_texts_lg:" ++ pyStrOfOpt r.lang) ≠ "valid_texts" :=
        append_ne_of_lt_length _ _ _ (by decide)
      have hl2 : ("valid_texts_lg:" ++ pyStrOfOpt r.lang) ≠ "short_texts" :=
        append_ne_of_lt_length _ _ _ (by decide)
      rw [compute_valid args encode tS tE st r h1 h2.1 h2.2]
      simp [classSum, statGet_cons, sumSkipped_cons, isSkipKey_lang, isSkipKey_bucket,
        hb1, hb2, hl1, hl2,
        show isSkipKey "valid_texts" = false from by decide,
        show ¬("valid_texts" : String) = "short_texts" from by decide]
      omega
    · rw [compute_short args encode tS tE st r h1 h2]
      simp [classSum, statGet_cons, sumSkipped_cons,
        show ¬("short_texts" : String) = "valid_texts" from by decide,
        show isSkipKey "short_texts" = false from by decide]
      omega

/-- The writer's `files_created` increment touches none of the three
classes. -/
theorem classSum_files (s : List String) :
    classSum ("files_created" :: s) = classSum s := by
  simp [classSum, statGet_cons, sumSkipped_cons,
    show ¬("files_created" : String) = "valid_texts" from by decide,
    show ¬("files_created" : String) = "short_texts" from by decide,
    show isSkipKey "files_created" = false from by decide]

/-- Over a run, the combined count grows by exactly the number of records
passed to `compute_embeddings`. -/
theorem classSum_processAll (args : Args) (encode : Bool → String → List ℚ)
    (st : ProcState) (recs : List (InputRecord × ℚ × ℚ)) :
    classSum ((processAll args encode st recs).1.stats) =
      classSum st.stats + recs.length := by
  induction recs generalizing st with
  | nil => simp [processAll]
  | cons p rest ih =>
    have hstep := classSum_compute args encode p.2.1 p.2.2 st p.1
    simp only [processAll]
    cases h : (compute_embeddings args encode p.2.1 p.2.2 st p.1).2 with
    | none =>
      simp only [h]
      rw [ih, hstep]
      simp [List.length_cons]
      omega
    | some o =>
      simp only [h]
      rw [ih]
      simp only [classSum_files, hstep, List.length_cons]
      omega

deriving instance DecidableEq for Except

/-- Splitting on the first slash finds the slash after a slash-free head. -/
theorem splitFirstSlash_app (b k : List Char) (hb : ('/' : Char) ∉ b) :
    splitFirstSlash (b ++ '/' :: k) = some (b, k) := by
  induction b with
  | nil => simp [splitFirstSlash]
  | cons c cs ih =>
    have hc : ¬ c = '/' := fun h => hb (h ▸ List.mem_cons_self c cs)
    have hcs : ('/' : Char) ∉ cs := fun hm => hb (List.mem_cons_of_mem c hm)
    simp [splitFirstSlash, hc, ih hcs]

/-- Splitting on the first slash fails on slash-free input. -/
theorem splitFirstSlash_none (l : List Char) (h : ('/' : Char) ∉ l) :
    splitFirstSlash l = none := by
  induction l with
  | nil => rfl
  | cons c cs ih =>
    have hc : ¬ c = '/' := fun hx => h (hx ▸ List.mem_cons_self c cs)
    have hcs : ('/' : Char) ∉ cs := fun hm => h (List.mem_cons_of_mem c hm)
    simp [splitFirstSlash, hc, ih hcs]

/-! ## Claim theorems -/

/-- C6: for every `s3://b/k1/k2` the resolver returns `(b, "k1/k2")`, keys
with further slashes kept whole; any string lacking the `s3://` prefix
raises the invalid-path `ValueError`; and when no `/` follows the bucket the
same error kind (`ValueError`) is raised.  The resolver is a pure Lean
function, hence deterministic and side-effect free. -/
theorem claim6_parse_s3_path :
    (∀ b k1 k2 : String, ('/' : Char) ∉ b.data →
      parse_s3_path ("s3://" ++ b ++ "/" ++ k1 ++ "/" ++ k2) = .ok (b, k1 ++ "/" ++ k2))
    ∧ (∀ s : String, pyStartsWith s "s3://" = false →
      parse_s3_path s = .error (.valueError "S3 path must start with s3://"))
    ∧ (∀ rest : String, ('/' : Char) ∉ rest.data →
      parse_s3_path ("s3://" ++ rest) =
        .error (.valueError "S3 path must be in the format s3://bucket/key")) := by
  refine ⟨?_, ?_, ?_⟩
  · intro b k1 k2 hb
    unfold parse_s3_path pyStartsWith
    simp only [String.data_append, List.append_assoc]
    rw [isPrefixOf_append_self]
    simp only [List.cons_append, List.nil_append]
    rw [if_neg (show ¬(true = false) from by decide)]
    rw [show List.drop 5 ('s' :: '3' :: ':' :: '/' :: '/' :: (b.data ++ ('/' :: (k1.data ++ '/' :: k2.data))))
        = b.data ++ ('/' :: (k1.data ++ '/' :: k2.data)) from rfl]
    rw [splitFirstSlash_app _ _ hb]
    simp only [Except.ok.injEq, Prod.mk.injEq]
    constructor
    · trivial
    · apply String.ext
      simp [String.data_append]
  · intro s h
    unfold parse_s3_path
    rw [h]
    rfl
  · intro rest h
    unfold parse_s3_path pyStartsWith
    simp only [String.data_append]
    rw [isPrefixOf_append_self]
    simp only [List.cons_append, List.nil_append]
    rw [if_neg (show ¬(true = false) from by decide)]
    rw [show List.drop 5 ('s' :: '3' :: ':' :: '/' :: '/' :: rest.data) = rest.data from rfl]
    rw [splitFirstSlash_none _ h]

/-- Witness for C6 at concrete inputs. -/
theorem claim6_parse_s3_path_witness :
    parse_s3_path "s3://bkt/k1/k2" = .ok ("bkt", "k1/k2")
    ∧ parse_s3_path "file://bkt/k" = .error (.valueError "S3 path must start with s3://")
    ∧ parse_s3_path "s3://bucketonly" =
        .error (.valueError "S3 path must be in the format s3://bucket/key") := by
  refine ⟨?_, ?_, ?_⟩
  · have h := claim6_parse_s3_path.1 "bkt" "k1" "k2" (by decide)
    rw [show ("s3://" ++ "bkt" ++ "/" ++ "k1" ++ "/" ++ "k2" : String) = "s3://bkt/k1/k2" from rfl,
      show ("k1" ++ "/" ++ "k2" : String) = "k1/k2" from rfl] at h
    exact h
  · exact claim6_parse_s3_path.2.1 "file://bkt/k" (by decide)
  · have h := claim6_parse_s3_path.2.2 "bucketonly" (by decide)
    rw [show ("s3://" ++ "bucketonly" : String) = "s3://bucketonly" from rfl] at h
    exact h

/-- C8: whenever the existence probe reports the key present, the uploader
returns without uploading and the remote store is unchanged; in particular
running the uploader again after a successful upload to the same path is an
idempotent no-op (not an error), leaving the first uploaded object in
place. -/
theorem claim8_upload_idempotent :
    (∀ (s3 : S3State) (localContent : Option String) (remote : RemoteResult)
        (p b k : String), parse_s3_path p = .ok (b, k) →
        file_exists_in_s3 s3 remote b k = .ok true →
        upload_file_to_s3 s3 localContent remote p = .ok (s3, .skippedExists))
    ∧ (∀ (s3 s3' : S3State) (lc lc' : Option String) (rm : RemoteResult)
        (p : String), upload_file_to_s3 s3 lc rm p = .ok (s3', .uploaded) →
        upload_file_to_s3 s3' lc' .ok p = .ok (s3', .skippedExists)) := by
  constructor
  · intro s3 localContent remote p b k hp hex
    unfold upload_file_to_s3
    rw [hp]
    simp [hex]
  · intro s3 s3' lc lc' rm p hup
    cases hp : parse_s3_path p with
    | error e =>
      rw [upload_file_to_s3, hp] at hup
      simp at hup
    | ok bk =>
      rw [upload_file_to_s3, hp] at hup
      cases hex : file_exists_in_s3 s3 rm bk.1 bk.2 with
      | error e => simp [hex] at hup
      | ok present =>
        cases present with
        | true => simp [hex] at hup
        | false =>
          simp only [hex] at hup
          cases lc with
          | none => simp at hup
          | some c =>
            cases rm with
            | noCreds => simp at hup
            | partialCreds => simp at hup
            | otherError m => simp at hup
            | ok =>
              simp only [Except.ok.injEq, Prod.mk.injEq] at hup
              have hs3 : s3' = s3Put s3 bk.1 bk.2 c := hup.1.symm
              have hex' : file_exists_in_s3 s3' .ok bk.1 bk.2 = .ok true := by
                rw [hs3]
                simp [file_exists_in_s3, s3Get, s3Put, List.find?]
              rw [upload_file_to_s3, hp]
              simp [hex']

/-- Witness for C8 at a concrete store and path. -/
theorem claim8_upload_idempotent_witness :
    upload_file_to_s3 [(("b", "k"), "v1")] (some "v2") .ok "s3://b/k"
      = .ok ([(("b", "k"), "v1")], .skippedExists) := by
  have h := claim8_upload_idempotent.1 [(("b", "k"), "v1")] (some "v2") .ok
    "s3://b/k" "b" "k" (by decide) (by decide)
  exact h

/-- The model never gets constructed over a run in which every record is
filtered out by content type. -/
theorem processAll_skip_model (args : Args) (encode : Bool → String → List ℚ) :
    ∀ (recs : List (InputRecord × ℚ × ℚ)) (st : ProcState),
      (∀ p ∈ recs, optMem p.1.tp args.content_type = false) →
      (processAll args encode st recs).1.modelLoaded = st.modelLoaded := by
  intro recs
  induction recs with
  | nil => intro st h; rfl
  | cons p rest ih =>
    intro st h
    have hp := h p (List.mem_cons_self p rest)
    have hrest : ∀ q ∈ rest, optMem q.1.tp args.content_type = false :=
      fun q hq => h q (List.mem_cons_of_mem p hq)
    simp only [processAll]
    rw [compute_skip args encode p.2.1 p.2.2 st p.1 hp]
    simpa using ih _ hrest

/-- A sample argument set: allow-set `["ar"]`, minimum length 2, model `m@r`,
no text inclusion, no S3 output. -/
def exArgs : Args :=
  { content_type := ["ar"], min_char_length := 2, model_name := "m",
    model_revision := "r", normalize_embeddings := false, include_text := false,
    s3_output_path := none, s3_output_dry_run := false,
    keep_timestamp_only := false }

/-- A sample opaque embedding backend. -/
def exEncode : Bool → String → List ℚ := fun _ _ => [37 / 10]

/-- A sample qualifying record. -/
def exRec : InputRecord :=
  { id := some "a1", tp := some "ar", ft := some "abc", lang := some "de" }

/-- A sample record with a disallowed content type. -/
def exSkipRec : InputRecord :=
  { id := some "a2", tp := some "page", ft := some "short", lang := none }

/-- C1: the output stream is the in-order `filterMap` of the per-record
results (so Result Records keep the relative order of their inputs), and
every record whose `tp` is allowed and whose `ft` is non-empty and strictly
longer than the threshold yields exactly one Result Record whose `len` is
the exact character count of `ft` and whose embedding coordinates are each
the 5-decimal rounding of the backend's coordinates. -/
theorem claim1_valid_record_output (args : Args) (encode : Bool → String → List ℚ)
    (st : ProcState) (recs : List (InputRecord × ℚ × ℚ)) :
    ((processAll args encode st recs).2 =
      recs.filterMap (fun p => (compute_embeddings args encode p.2.1 p.2.2 initState p.1).2))
    ∧ (∀ (r : InputRecord) (tS tE : ℚ),
        optMem r.tp args.content_type = true →
        (r.ft).getD "" ≠ "" →
        (((r.ft).getD "").length : Int) > args.min_char_length →
        (compute_embeddings args encode tS tE initState r).2 = some
          { id := r.id
            ts := tsString (epochSecOf tE)
            embedder := args.model_name ++ "@" ++ args.model_revision
            len := ((r.ft).getD "").length
            textOpt := if args.include_text then some ((r.ft).getD "") else none
            embedding := (encode args.normalize_embeddings ((r.ft).getD "")).map pyRound5 }) := by
  constructor
  · exact processAll_snd args encode st recs
  · intro r tS tE h1 h2 h3
    rw [compute_valid args encode tS tE initState r h1 h2 h3]

/-- Witness for C1: one qualifying record produces exactly its Result
Record. -/
theorem claim1_valid_record_output_witness :
    (compute_embeddings exArgs exEncode 0 0 initState exRec).2 = some
      { id := some "a1", ts := "1970-01-01T00:00:00+00:00Z", embedder := "m@r",
        len := 3, textOpt := none, embedding := [37 / 10] } := by
  have h := (claim1_valid_record_output exArgs exEncode initState []).2 exRec 0 0
    (by decide) (by decide) (by decide)
  rw [h]
  simp only [Option.some.injEq, ResultRecord.mk.injEq]
  refine ⟨rfl, ?_, rfl, rfl, rfl, ?_⟩
  · rw [show epochSecOf 0 = 0 from by norm_num [epochSecOf]]
    decide
  · show List.map pyRound5 [37 / 10] = [37 / 10]
    simp only [List.map_cons, List.map_nil, List.cons.injEq, and_true]
    norm_num [pyRound5, roundHalfEven]

/-- C2: at every point of a run (equivalently, after every list of parsed
records handed to `compute_embeddings`), `valid_texts + short_texts +
sum(skipped_type_*)` equals the number of records processed; each record
moves the combined count up by exactly one. -/
theorem claim2_counter_invariant (args : Args) (encode : Bool → String → List ℚ)
    (recs : List (InputRecord × ℚ × ℚ)) :
    (∀ (st : ProcState) (r : InputRecord) (tS tE : ℚ),
      classSum ((compute_embeddings args encode tS tE st r).1.stats) =
        classSum st.stats + 1)
    ∧ statGet ((processAll args encode initState recs).1.stats) "valid_texts"
      + statGet ((processAll args encode initState recs).1.stats) "short_texts"
      + sumSkipped ((processAll args encode initState recs).1.stats)
      = recs.length := by
  constructor
  · intro st r tS tE
    exact classSum_compute args encode tS tE st r
  · have h := classSum_processAll args encode initState recs
    simp only [classSum] at h
    simpa [initState, statGet, sumSkipped] using h

/-- C7: a record with a disallowed `tp` produces no Result Record, bumps
exactly its own `skipped_type_<tp>` counter, and never touches the model;
if every record of a run is filtered this way, the backend is never
constructed. -/
theorem claim7_skip_no_model (args : Args) (encode : Bool → String → List ℚ) :
    (∀ (st : ProcState) (r : InputRecord) (tS tE : ℚ),
      optMem r.tp args.content_type = false →
      (compute_embeddings args encode tS tE st r).2 = none
      ∧ (compute_embeddings args encode tS tE st r).1.stats =
          ("skipped_type_" ++ pyStrOfOpt r.tp) :: st.stats
      ∧ (compute_embeddings args encode tS tE st r).1.modelLoaded = st.modelLoaded)
    ∧ (∀ recs : List (InputRecord × ℚ × ℚ),
      (∀ p ∈ recs, optMem p.1.tp args.content_type = false) →
      (processAll args encode initState recs).1.modelLoaded = false) := by
  constructor
  · intro st r tS tE h
    rw [compute_skip args encode tS tE st r h]
    exact ⟨rfl, rfl, rfl⟩
  · intro recs h
    exact processAll_skip_model args encode recs initState h

/-- Witness for C7: a `page` record under allow-set `["ar"]` is skipped and
the model is never loaded. -/
theorem claim7_skip_no_model_witness :
    (compute_embeddings exArgs exEncode 0 0 initState exSkipRec).2 = none
    ∧ (processAll exArgs exEncode initState [(exSkipRec, 0, 0)]).1.modelLoaded = false := by
  refine ⟨((claim7_skip_no_model exArgs exEncode).1 initState exSkipRec 0 0 (by decide)).1, ?_⟩
  exact (claim7_skip_no_model exArgs exEncode).2 [(exSkipRec, 0, 0)] (by decide)

/-- C10: a record that lacks `tp` entirely (`data.get("tp")` is `None`)
raises no error, produces no Result Record, and increments the counter
spelled `skipped_type_None` by exactly one. -/
theorem claim10_missing_tp (args : Args) (encode : Bool → String → List ℚ)
    (tS tE : ℚ) (st : ProcState) (r : InputRecord) (h : r.tp = none) :
    compute_embeddings args encode tS tE st r =
      ({ st with stats := "skipped_type_None" :: st.stats }, none)
    ∧ statGet ((compute_embeddings args encode tS tE st r).1.stats) "skipped_type_None"
      = statGet st.stats "skipped_type_None" + 1 := by
  have hm : optMem r.tp args.content_type = false := by rw [h]; rfl
  have hc := compute_skip args encode tS tE st r hm
  rw [h] at hc
  rw [show ("skipped_type_" ++ pyStrOfOpt none : String) = "skipped_type_None" from rfl] at hc
  refine ⟨hc, ?_⟩
  rw [hc]
  simp [statGet_cons]

/-- Witness for C10: a record with no `tp` field. -/
theorem claim10_missing_tp_witness :
    compute_embeddings exArgs exEncode 0 0 initState
        { id := none, tp := none, ft := some "long enough text", lang := none }
      = ({ initState with stats := ["skipped_type_None"] }, none) := by
  have h := (claim10_missing_tp exArgs exEncode 0 0 initState
    { id := none, tp := none, ft := some "long enough text", lang := none } rfl).1
  rw [h]
  rfl

/-- Follows the spec's words, not the source: a valid ISO-8601 UTC timestamp
at second precision whose timezone is denoted by a trailing `Z` has the
shape `YYYY-MM-DDTHH:MM:SSZ` — twenty characters, digits at the digit
positions, and the `Z` as the only timezone designator. -/
def specISO8601UTCZ (s : String) : Bool :=
  match s.data with
  | [y1, y2, y3, y4, c1, m1, m2, c2, d1, d2, c3, h1, h2, c4, n1, n2, c5, s1, s2, c6] =>
    y1.isDigit && y2.isDigit && y3.isDigit && y4.isDigit &&
    m1.isDigit && m2.isDigit && d1.isDigit && d2.isDigit &&
    h1.isDigit && h2.isDigit && n1.isDigit && n2.isDigit &&
    s1.isDigit && s2.isDigit &&
    (c1 == '-') && (c2 == '-') && (c3 == 'T') && (c4 == ':') && (c5 == ':') && (c6 == 'Z')
  | _ => false

/-- C3 (code bug): the `ts` of the Result Record produced at epoch second 0
is `"1970-01-01T00:00:00+00:00Z"`: `isoformat()` of an aware datetime
already carries the `+00:00` offset, so appending `"Z"` yields a string
with two timezone designators, which is not a valid ISO-8601 UTC timestamp
with a trailing-`Z` timezone as the spec requires. -/
theorem claim3_ts_not_iso8601 :
    ((compute_embeddings exArgs exEncode 0 0 initState exRec).2).map (fun r => r.ts)
      = some "1970-01-01T00:00:00+00:00Z"
    ∧ specISO8601UTCZ "1970-01-01T00:00:00+00:00Z" = false
    ∧ specISO8601UTCZ "1970-01-01T00:00:00Z" = true := by
  refine ⟨?_, by decide, by decide⟩
  have h := compute_valid exArgs exEncode 0 0 initState exRec (by decide) (by decide) (by decide)
  rw [h]
  simp only [Option.map_some]
  rw [show epochSecOf 0 = 0 from by norm_num [epochSecOf]]
  decide

/-- C5 (code bug): the generator returned by the local branch of
`read_lines` holds a file handle that the `with` block has already closed,
so consuming it raises `ValueError: I/O operation on closed file` before
yielding a single line — for every local file, whatever its contents. -/
theorem claim5_local_read_fails (content : List String) :
    drainGen (read_lines_local content) = .error .ioOnClosedFile := by
  cases content <;> rfl

/-- C9 counterexample: after processing one qualifying record with language
`de` and length 3, the counters the claim names (`valid_texts_lg_de`,
`char_count_bucket_5k_5000`, underscore-spelled) are still zero, while the
colon-spelled counters the code actually uses are 1 — refuting the claimed
spelling for every processed record. -/
theorem claim9_counterexample :
    statGet ((compute_embeddings exArgs exEncode 0 0 initState exRec).1.stats) "valid_texts" = 1
    ∧ statGet ((compute_embeddings exArgs exEncode 0 0 initState exRec).1.stats) "valid_texts_lg_de" = 0
    ∧ statGet ((compute_embeddings exArgs exEncode 0 0 initState exRec).1.stats) "valid_texts_lg:de" = 1
    ∧ statGet ((compute_embeddings exArgs exEncode 0 0 initState exRec).1.stats) "char_count_bucket_5k_5000" = 0
    ∧ statGet ((compute_embeddings exArgs exEncode 0 0 initState exRec).1.stats) "char_count_bucket_5k:5000" = 1 := by
  have h := compute_valid exArgs exEncode 0 0 initState exRec (by decide) (by decide) (by decide)
  have hb : bucket5k ((exRec.ft).getD "").length = 5000 := by
    show bucket5k 3 = 5000
    unfold bucket5k
    rw [show (⌈((3 : ℕ) : ℚ) / 5000⌉ : ℤ) = 1 from by rw [Int.ceil_eq_iff]; norm_num]
    rfl
  rw [h, hb]
  refine ⟨by decide, by decide, by decide, by decide, by decide⟩

/-- C9 amended: the dynamically named keys are `skipped_type_<tp>` (with an
underscore) for content-type skips, but `valid_texts_lg:<lang>` and
`char_count_bucket_5k:<N>` (with a colon before the dynamic part), where
`N = ceil(len/5000)*5000`. -/
theorem claim9_amended (args : Args) (encode : Bool → String → List ℚ)
    (tS tE : ℚ) (st : ProcState) (r : InputRecord)
    (h1 : optMem r.tp args.content_type = true)
    (h2 : (r.ft).getD "" ≠ "")
    (h3 : (((r.ft).getD "").length : Int) > args.min_char_length) :
    (compute_embeddings args encode tS tE st r).1.stats =
      ("valid_texts_lg:" ++ pyStrOfOpt r.lang) :: "valid_texts" ::
        ("char_count_bucket_5k:" ++ toString (bucket5k ((r.ft).getD "").length)) :: st.stats
    ∧ bucket5k ((r.ft).getD "").length
        = ((⌈((((r.ft).getD "").length : ℚ)) / 5000⌉).toNat) * 5000
    ∧ (∀ (st' : ProcState) (r' : InputRecord),
        optMem r'.tp args.content_type = false →
        (compute_embeddings args encode tS tE st' r').1.stats =
          ("skipped_type_" ++ pyStrOfOpt r'.tp) :: st'.stats) := by
  refine ⟨?_, rfl, ?_⟩
  · rw [compute_valid args encode tS tE st r h1 h2 h3]
  · intro st' r' h
    rw [compute_skip args encode tS tE st' r' h]

/-- Witness for the amended C9: the concrete spellings produced for one
qualifying record and one skipped record. -/
theorem claim9_amended_witness :
    (compute_embeddings exArgs exEncode 0 0 initState exRec).1.stats =
      ["valid_texts_lg:de", "valid_texts", "char_count_bucket_5k:5000"]
    ∧ (compute_embeddings exArgs exEncode 0 0 initState exSkipRec).1.stats =
      ["skipped_type_page"] := by
  have h := claim9_amended exArgs exEncode 0 0 initState exRec
    (by decide) (by decide) (by decide)
  have hb : bucket5k ((exRec.ft).getD "").length = 5000 := by
    show bucket5k 3 = 5000
    unfold bucket5k
    rw [show (⌈((3 : ℕ) : ℚ) / 5000⌉ : ℤ) = 1 from by rw [Int.ceil_eq_iff]; norm_num]
    rfl
  constructor
  · rw [h.1, hb]
    decide
  · rw [h.2.2 initState exSkipRec (by decide)]
    decide

/-- A sample argument set configured for upload with
`--keep-timestamp-only`. -/
def exArgsUp : Args :=
  { content_type := ["ar"], min_char_length := 400, model_name := "m",
    model_revision := "r", normalize_embeddings := false, include_text := false,
    s3_output_path := some "s3://b/k", s3_output_dry_run := false,
    keep_timestamp_only := true }

/-- C4 counterexample: the claim fails in two ways.  With missing
credentials the run is fatal, not logged-and-continued: the existence
probe's `NoCredentialsError` escapes `file_exists_in_s3` (which catches
only `ClientError`) before the uploader's `try` is even entered, so
`runUploadPhase` aborts with the exception.  And in the one upload failure
the source does catch — the local file missing — the run continues but the
truncate step is not skipped: with `--keep-timestamp-only` set the local
output ends up as a zero-byte file rather than being left unchanged. -/
theorem claim4_counterexample :
    runUploadPhase exArgsUp [] (some "data") 7 .noCreds none 99
      = .error .botoNoCredentials
    ∧ runUploadPhase exArgsUp [] none 7 .ok none 99
      = .ok ([], some "", 99, some .errLocalMissing)
    ∧ (some "" : Option String) ≠ none := by
  exact ⟨by decide, by decide, by decide⟩

/-- C4 amended: upload failures are not uniformly non-fatal.  Missing or
partial credentials raise out of the existence probe (which runs outside
any `try` and catches only `ClientError`), aborting the run before any
upload or truncation; any other remote-side exception during the upload
call is fatal too, because matching the credential except clauses
evaluates non-existent `client.exceptions` attributes and raises
`AttributeError`.  Only a missing local file (`FileNotFoundError`) is
caught, logged and non-fatal; the run then continues past the upload with
the remote store unchanged, and the truncate-to-marker step is NOT
skipped: with `--keep-timestamp-only` set, `keep_timestamp_only` still
runs and leaves the local output a zero-byte file even though the upload
did not succeed. -/
theorem claim4_upload_failure_modes (args : Args) (s3 : S3State)
    (localMtime : Nat) (lastTs : Option Nat) (now : Nat) (p b k : String)
    (hpath : args.s3_output_path = some p)
    (hdry : args.s3_output_dry_run = false)
    (hkeep : args.keep_timestamp_only = true)
    (hparse : parse_s3_path p = .ok (b, k)) :
    (∀ localContent : Option String,
      runUploadPhase args s3 localContent localMtime .noCreds lastTs now
        = .error .botoNoCredentials)
    ∧ (∀ localContent : Option String,
      runUploadPhase args s3 localContent localMtime .partialCreds lastTs now
        = .error .botoPartialCredentials)
    ∧ (∀ (c m : String), s3Get s3 b k = none →
      runUploadPhase args s3 (some c) localMtime (.otherError m) lastTs now
        = .error .attributeError)
    ∧ (s3Get s3 b k = none →
      runUploadPhase args s3 none localMtime .ok lastTs now
        = .ok (s3, some "", lastTs.getD now, some .errLocalMissing)) := by
  refine ⟨?_, ?_, ?_, ?_⟩
  · intro localContent
    unfold runUploadPhase
    rw [hpath, hdry]
    simp [upload_file_to_s3, hparse, file_exists_in_s3]
  · intro localContent
    unfold runUploadPhase
    rw [hpath, hdry]
    simp [upload_file_to_s3, hparse, file_exists_in_s3]
  · intro c m hge
    unfold runUploadPhase
    rw [hpath, hdry]
    simp [upload_file_to_s3, hparse, file_exists_in_s3, hge]
  · intro hge
    unfold runUploadPhase
    rw [hpath, hdry]
    simp [upload_file_to_s3, hparse, file_exists_in_s3, hge, hkeep,
      keep_timestamp_only]

/-- Witness for the amended C4: a fatal credential failure and the one
caught failure mode, at concrete inputs. -/
theorem claim4_upload_failure_modes_witness :
    runUploadPhase exArgsUp [(("x", "y"), "v")] (some "old output") 7 .partialCreds (some 5) 99
      = .error .botoPartialCredentials
    ∧ runUploadPhase exArgsUp [] none 7 .ok (some 5) 99
      = .ok ([], some "", 5, some .errLocalMissing) := by
  constructor
  · exact (claim4_upload_failure_modes exArgsUp [(("x", "y"), "v")] 7 (some 5) 99
      "s3://b/k" "b" "k" rfl rfl rfl (by decide)).2.1 (some "old output")
  · exact (claim4_upload_failure_modes exArgsUp [] 7 (some 5) 99
      "s3://b/k" "b" "k" rfl rfl rfl (by decide)).2.2.2 (by decide)

end TextEmbedder
